import Mathlib

/-!
# Verification of the PLEXOS parser property-resolution pipeline

Shallow embedding of `src/r2x/parser/plexos.py` (class `PlexosParser`).
The materialized property table is a list of rows; polars expressions
become Lean functions on rows (polars' Kleene/null semantics are resolved
explicitly where a column is nullable); database queries and the pint
unit registry are external collaborators and enter as parameters;
exceptions become `Except`.
-/

namespace R2X

/-- One raw property record of the materialized property table
(`DEFAULT_QUERY_COLUMNS_SCHEMA` in `plexos.py`).  Columns that no embedded
operation ever consults (`parent_object_id`, the class-name strings,
`date_from`/`date_to`, `memo`) are omitted; nullable columns consulted
through polars null-aware expressions are `Option`s.  `property_value`
(`Float32` in the schema) is embedded as `ℚ`. -/
structure Row where
  parent_class_id : Int
  child_class_id : Int
  category : String
  object_id : Int
  name : String
  property_name : Option String
  property_unit : String
  property_value : ℚ
  band : Int
  text : Option String
  scenario : Option String
  deriving Repr, DecidableEq

/-- `pl.col("scenario").is_in(self.scenarios)` as a row predicate: a null
scenario gives a Kleene-null which the surrounding `filter` drops, hence
`false` here. -/
def scenarioIsIn (scenarios : List String) (r : Row) : Bool :=
  match r.scenario with
  | some s => scenarios.contains s
  | none => false

/-- The error message raised by `_get_model_data` when no valid scenarios
are loaded. -/
def noScenarioMsg : String :=
  "Function ._get_model_data does not work without any valid scenarios. Check that the model name exists on the xml file."

/-- The base-case mask built by `_get_model_data` once scenario-specific
rows exist:
`scenario.is_null() | (~(name.is_in(S.name) | property_name.is_in(S.property_name)) | property_name.is_null())`.
`names`/`propNames` hold the (non-null) values of the scenario rows'
`name` and `property_name` columns.  A null `property_name` makes the
inner disjunction Kleene-null, but the trailing `| property_name.is_null()`
then yields `true`, which the `match` reproduces. -/
def baseCaseFilter (names : List String) (propNames : List String) (r : Row) : Bool :=
  r.scenario.isNone ||
    (match r.property_name with
     | none => true
     | some pn => !(names.contains r.name || propNames.contains pn))

/-- `PlexosParser._get_model_data`: filter the property table for a row
predicate under the active scenario set, with scenario-override
semantics.  Raises (returns `.error`) when the scenario list is
empty/unset. -/
def getModelData (scenarios : List String) (plexosData : List Row)
    (dataFilter : Row → Bool) : Except String (List Row) :=
  if scenarios.isEmpty then .error noScenarioMsg
  else
    let scenarioSpecificData := plexosData.filter fun r => dataFilter r && scenarioIsIn scenarios r
    if scenarioSpecificData.isEmpty then
      .ok (plexosData.filter fun r => dataFilter r && r.scenario.isNone)
    else
      let names := scenarioSpecificData.map (·.name)
      let propNames := scenarioSpecificData.filterMap (·.property_name)
      .ok (scenarioSpecificData ++
        plexosData.filter fun r => dataFilter r && baseCaseFilter names propNames r)

/-- The base-case mask as the specification states it (§4.2, claim C1):
`(scenario is null) OR (name not among the scenario rows' names AND
property_name not among the scenario rows' property names) OR
(property_name is null)`. -/
def baseCaseMaskSpec (scenarioRows : List Row) (r : Row) : Bool :=
  r.scenario.isNone
  || (!((scenarioRows.map (·.name)).contains r.name)
      && !((scenarioRows.filterMap (·.property_name)).any fun pn => r.property_name == some pn))
  || r.property_name.isNone

/-- A Python value stored in a property bag: either a numeric magnitude
with an optional attached unit (a pint `Quantity` when the unit resolved,
a bare float otherwise), or a non-numeric object (enum member / string)
identified by a symbol.  Python truthiness of a number/Quantity is
`magnitude ≠ 0`; non-numeric objects here are always truthy. -/
inductive PValue
  | num (magnitude : ℚ) (unit : Option String)
  | sym (s : String)
  deriving Repr, DecidableEq

/-- A Python `dict` with string keys in insertion order. -/
abbrev Bag (α : Type) := List (String × α)

/-- `dict[k]` / `dict.get(k)`: the value under key `k` (keys are unique,
so first match). -/
def bagLookup (bag : Bag α) (k : String) : Option α :=
  match bag with
  | [] => none
  | p :: rest => if p.1 == k then some p.2 else bagLookup rest k

/-- `dict[k] = v`: replace in place when the key exists, append otherwise. -/
def bagSet (bag : Bag α) (k : String) (v : α) : Bag α :=
  if bag.any (fun p => p.1 == k) then
    bag.map (fun p => if p.1 == k then (k, v) else p)
  else bag ++ [(k, v)]

/-- `unit.replace("$", "usd")`: Python `str.replace` specialized to the
single-character pattern actually used (every `$` becomes `usd`). -/
def replaceDollar (s : String) : String :=
  ⟨s.data.flatMap fun c => if c = '$' then "usd".data else [c]⟩

/-- One record handed to `_parse_property_data`
(`generator_data[["band", "property_name", "property_value", "property_unit"]].to_dicts()`). -/
structure PropRecord where
  band : Int
  property_name : String
  property_value : ℚ
  property_unit : String
  deriving Repr, DecidableEq

/-- The loop body of `PlexosParser._parse_property_data`.  State is
`(mapped_properties, property_counts, multi_band_properties)`; the pint
registry lookup `ureg[unit]` is the external parameter `ureg` (`none`
models `UndefinedUnitError`).  `unit == ""` is falsy in Python exactly
like `None`, so both collapse to `none`.  The lookup
`property_counts[mapped_property_name]` raises `KeyError` when absent,
which the `Except` error models. -/
def parseStep (propertyMap : Bag String) (ureg : String → Option String)
    (st : Bag PValue × Bag (List Int) × List String) (record : PropRecord) :
    Except String (Bag PValue × Bag (List Int) × List String) :=
  let (mappedProperties, propertyCounts, multiBandProperties) := st
  let band := record.band
  let propName := record.property_name
  let propValue := record.property_value
  let unit0 := replaceDollar record.property_unit
  let mappedPropertyName := (bagLookup propertyMap propName).getD propName
  let unit : Option String := if unit0 == "-" || unit0 == "" then none else ureg unit0
  if !(propertyCounts.any fun p => p.1 == propName) then
    .ok (bagSet mappedProperties mappedPropertyName (.num propValue unit),
         bagSet propertyCounts mappedPropertyName [band],
         multiBandProperties)
  else
    match bagLookup propertyCounts mappedPropertyName with
    | none => .error "KeyError: property_counts[mapped_property_name]"
    | some bands =>
      if !(bands.contains band) then
        let newPropName := mappedPropertyName ++ "_" ++ toString band
        .ok (bagSet mappedProperties newPropName (.num propValue unit),
             bagSet propertyCounts mappedPropertyName (bands ++ [band]),
             if multiBandProperties.contains mappedPropertyName then multiBandProperties
             else multiBandProperties ++ [mappedPropertyName])
      else
        .ok (bagSet mappedProperties mappedPropertyName (.num propValue unit),
             propertyCounts,
             multiBandProperties)

/-- `PlexosParser._parse_property_data`: consolidate multi-row,
multi-band property records into `(mapped_properties, multi_band_properties)`. -/
def parsePropertyData (propertyMap : Bag String) (ureg : String → Option String)
    (recordData : List PropRecord) : Except String (Bag PValue × List String) :=
  (recordData.foldlM (parseStep propertyMap ureg) ([], [], [])).map fun st => (st.1, st.2.2)

/-- The `available` clamp shared by `_construct_generators` and
`_construct_batteries`:
`if available := valid_fields.get("available", None): if available > 1: valid_fields["available"] = 1`.
The walrus condition is Python truthiness (absent key or zero magnitude
skip the block); the assignment stores the bare int `1`.  A non-numeric
value under `available` never occurs (property values are numeric), so
`sym` passes through. -/
def clampAvailable (validFields : Bag PValue) : Bag PValue :=
  match bagLookup validFields "available" with
  | some (.num q _) =>
    if q = 0 then validFields
    else if 1 < q then bagSet validFields "available" (.num 1 none)
    else validFields
  | some (.sym _) => validFields
  | none => validFields

/-- Outcome of `_construct_batteries` for a single battery group. -/
inductive BatteryOutcome
  | added (validFields : Bag PValue)
  | skippedMissingFields
  | skippedZeroCapacity
  | keyError
  deriving Repr, DecidableEq

/-- The per-battery body of `PlexosParser._construct_batteries`, starting
from the aggregated `mapped_records` bag.  `batteryFields` embeds the
external `GenericBattery.model_fields` key set and `requiredFields` its
required subset; the `ext` sub-dictionary's contents never influence
control flow, so it is represented by a single marker entry.  The final
`mapped_records["storage_capacity"]` lookup raises `KeyError` when the
key is absent; `Quantity == 0` compares the magnitude.  This first part
mutates `mapped_records` in place: name insertion, the
`"Max Power"`→`base_power` and `"Capacity"`→`storage_capacity` copies,
and the fixed storage prime-mover code. -/
def batteryMappedRecords (batteryName : String) (mappedRecords : Bag PValue) : Bag PValue :=
  let m0 := bagSet mappedRecords "name" (.sym batteryName)
  let m1 := match bagLookup m0 "Max Power" with
    | some v => bagSet m0 "base_power" v
    | none => m0
  let m2 := match bagLookup m1 "Capacity" with
    | some v => bagSet m1 "storage_capacity" v
    | none => m1
  bagSet m2 "prime_mover_type" (.sym "PrimeMoversType.BA")

def constructBattery (batteryFields requiredFields : List String)
    (batteryName : String) (mappedRecords : Bag PValue) : BatteryOutcome :=
  let m3 := batteryMappedRecords batteryName mappedRecords
  let validFields0 := m3.filter fun p => batteryFields.contains p.1
  let extData := m3.filter fun p => !(batteryFields.contains p.1)
  let validFields1 := clampAvailable validFields0
  let validFields := if extData.isEmpty then validFields1 else bagSet validFields1 "ext" (.sym "ext")
  if !(requiredFields.all fun k => validFields.any fun p => p.1 == k) then
    .skippedMissingFields
  else
    match bagLookup m3 "storage_capacity" with
    | none => .keyError
    | some (.num q _) => if q = 0 then .skippedZeroCapacity else .added validFields
    | some (.sym _) => .added validFields

/-- Outcome of `PlexosParser._process_scenarios`. -/
inductive ScenarioOutcome
  | modelErr (msg : String)
  | assertErr
  | warnReturn
  | okScenarios (modelId : Int) (scenarios : List String)
  deriving Repr, DecidableEq

/-- `True` exactly when the outcome is a raised `ModelError`. -/
def ScenarioOutcome.isModelErr : ScenarioOutcome → Bool
  | .modelErr _ => true
  | _ => false

/-- Message raised when `_process_scenarios` receives no model name. -/
def missingModelMsg : String :=
  "Required model name not found. Parser requires a model to parse from the Plexos database"

/-- Message raised when the model-name lookup is ambiguous. -/
def multipleModelMsg (modelName : String) : String :=
  "Multiple models with the same " ++ modelName ++ " returned. Check database or spelling."

/-- `PlexosParser._process_scenarios`.  The two database queries (object
id by name; scenario names under a model id) are external parameters.
Zero matches log a warning and return early; an empty scenario query
fails the `assert valid_scenarios`. -/
def processScenarios (objectIdQuery : String → List Int)
    (scenarioQuery : Int → List String) (modelName : Option String) : ScenarioOutcome :=
  match modelName with
  | none => .modelErr missingModelMsg
  | some nm =>
    let modelId := objectIdQuery nm
    if modelId.length > 1 then .modelErr (multipleModelMsg nm)
    else
      match modelId with
      | [] => .warnReturn
      | mid :: _ =>
        let validScenarios := scenarioQuery mid
        if validScenarios.isEmpty then .assertErr
        else .okScenarios mid validScenarios

/-- One cell of the builders' pivot
(`pivot(index=DEFAULT_INDEX, columns="property_name",
values="property_value", aggregate_function="first")`): the value of the
first row in frame order matching the `(object_id, name, category)` index
key and the `property_name` column. -/
def pivotCell (rows : List Row) (oid : Int) (nm cat pn : String) : Option ℚ :=
  (rows.find? fun r =>
    r.object_id == oid && r.name == nm && r.category == cat &&
      r.property_name == some pn).map (·.property_value)

/-- A discretized time series as produced by
`SingleTimeSeries.from_array`: fixed step, initial timestamp (year,
month, day — the handlers never set a time of day), ordered values. -/
structure TimeSeriesData where
  resolutionHours : ℕ
  initialYear : ℚ
  initialMonth : ℚ
  initialDay : ℚ
  values : List ℚ
  deriving Repr, DecidableEq

/-- Proleptic-Gregorian leap-year rule (numpy `datetime64` calendar). -/
def isLeap (y : ℕ) : Bool :=
  y % 4 == 0 && (y % 100 != 0 || y % 400 == 0)

/-- Days in month `m` (1-based) of year `y`. -/
def daysInMonth (y m : ℕ) : ℕ :=
  if m = 2 then (if isLeap y then 29 else 28)
  else if m = 4 ∨ m = 6 ∨ m = 9 ∨ m = 11 then 30
  else 31

/-- Days in year `y`. -/
def daysInYear (y : ℕ) : ℕ := if isLeap y then 366 else 365

/-- The month (1..12) of each hour of year `y`, in order: the embedding of
`months = [dt.astype("datetime64[M]").astype(int) % 12 + 1 for dt in
np.arange(y, y+1, dtype="datetime64[h]")]` — hour `h` falls in month `m`
iff `h` lies within month `m`'s block of `24 * daysInMonth y m` hours. -/
def monthsOfYear (y : ℕ) : List ℕ :=
  (List.range 12).flatMap fun m => List.replicate (24 * daysInMonth y (m + 1)) (m + 1)

/-- One record handed to `_time_slice_handler`
(`property_data[["text", "property_value"]].to_dicts()`). -/
structure SliceRecord where
  text : String
  property_value : ℚ
  deriving Repr, DecidableEq

/-- `int(digits)` on a character list: all-digit, nonempty decimal
parse; `none` models the `ValueError` of `int()`. -/
def charsToNat? (cs : List Char) : Option ℕ :=
  if cs ≠ [] ∧ cs.all (·.isDigit) then
    some (cs.foldl (fun n c => n * 10 + (c.toNat - '0'.toNat)) 0)
  else none

/-- `int(record["text"].strip("M"))`: strip `M` from both ends, parse a
decimal integer. -/
def parseMonthCode (s : String) : Option ℕ :=
  charsToNat? (((s.data.dropWhile (· == 'M')).reverse.dropWhile (· == 'M')).reverse)

/-- `month_datetime_series[np.where(months == month)] = value`: overwrite
every position whose month matches. -/
def monthAssign (months : List ℕ) (series : List ℚ) (month : ℕ) (v : ℚ) : List ℚ :=
  (months.zip series).map fun p => if p.1 == month then v else p.2

/-- The loop body of `_time_slice_handler`: parse the month code, then
broadcast the record's value over that month's hours. -/
def timeSliceStep (months : List ℕ) (series : List ℚ) (record : SliceRecord) :
    Except String (List ℚ) :=
  match parseMonthCode record.text with
  | none => .error "ValueError: invalid month code"
  | some month => .ok (monthAssign months series month record.property_value)

/-- `PlexosParser._time_slice_handler`: broadcast twelve month-tagged
scalars over the hours of the target year.  `.ok none` is the
warn-and-skip path for a record count other than twelve. -/
def timeSliceHandler (weatherYear : ℕ) (propertyData : List SliceRecord) :
    Except String (Option TimeSeriesData) :=
  let months := monthsOfYear weatherYear
  let init : List ℚ := List.replicate (24 * daysInYear weatherYear) 0
  if propertyData.length ≠ 12 then .ok none
  else
    (propertyData.foldlM (timeSliceStep months) init).map fun series =>
      some ⟨1, (weatherYear : ℚ), 1, 1, series⟩

/-- An external tabular data file: named columns, rows as
column-name-to-value association lists.  Cells are numeric (the
string-cell lowercasing pass of `_csv_file_handler` does not affect the
numeric `year`/`month`/`day`/value columns the handler consumes). -/
structure CsvFile where
  columns : List String
  rows : List (Bag ℚ)
  deriving Repr

/-- `DATETIME_COLUMNS`. -/
def datetimeColumns : List String := ["year", "month", "day"]

/-- Column-name lowercasing
(`rename({column: column.lower() for column in data_file.columns})`). -/
def lowerCsv (f : CsvFile) : CsvFile :=
  ⟨f.columns.map (·.toLower), f.rows.map fun row => row.map fun p => (p.1.toLower, p.2)⟩

/-- `PlexosParser._csv_file_handler`.  The filesystem under the run
folder is the external map `runFolderFiles`, keyed by the property row's
raw `text` annotation (the Windows/POSIX relative-path normalization is
part of that resolution); `none` models `FileNotFoundError`, the
warn-and-skip path.  The melt is variable-major: for each non-datetime
column in order, every year-filtered row contributes one value.  The
`assert not data_file.is_empty()` becomes the `.error` on an empty melt;
the start timestamp comes from the first melted row's date columns. -/
def csvFileHandler (runFolderFiles : String → Option CsvFile) (weatherYear : ℚ)
    (propertyData : List String) : Except String (Option TimeSeriesData) :=
  match propertyData with
  | [] => .error "IndexError: text[0]"
  | fpathText :: _ =>
    match runFolderFiles fpathText with
    | none => .ok none
    | some rawFile =>
      let dataFile := lowerCsv rawFile
      if datetimeColumns.all (fun c => dataFile.columns.contains c) then
        let filtered := dataFile.rows.filter fun row => bagLookup row "year" == some weatherYear
        let valueColumns := dataFile.columns.filter fun c => !(datetimeColumns.contains c)
        let melted := valueColumns.flatMap fun c => filtered.map fun row => (row, c)
        if melted.isEmpty then .error "AssertionError: data_file.is_empty()"
        else
          match melted with
          | [] => .error "AssertionError: data_file.is_empty()"
          | (firstRow, _) :: _ =>
            match bagLookup firstRow "year", bagLookup firstRow "month", bagLookup firstRow "day",
                melted.mapM (fun p => bagLookup p.1 p.2) with
            | some y0, some m0, some d0, some values => .ok (some ⟨1, y0, m0, d0, values⟩)
            | _, _, _, _ => .error "ColumnNotFoundError"
      else .ok none

/-- `str.starts_with(pre)` on the character sequence. -/
def strStartsWith (s pre : String) : Bool :=
  s.data.take pre.data.length == pre.data

/-- `str.ends_with(suf)` on the character sequence (false when the
string is shorter than the suffix). -/
def strEndsWith (s suf : String) : Bool :=
  s.data.drop (s.data.length - suf.data.length) == suf.data && suf.data.length ≤ s.data.length

/-- `PlexosParser._text_handler`, the encoding dispatcher over a
property's rows (`(text, property_value)` pairs, texts non-null by the
caller's filter): all texts ending in `.csv` → CSV file handler; all
starting with `M` → time-slice handler; any starting with `H` →
unsupported hour slices (warn, skip); anything else → no series.  Its
only caller is `_construct_renewable_profiles`, which `build_system`
does not invoke (the call is commented out). -/
def textHandler (runFolderFiles : String → Option CsvFile) (weatherYear : ℚ) (y : ℕ)
    (propertyData : List (String × ℚ)) : Except String (Option TimeSeriesData) :=
  if propertyData.all (fun p => strEndsWith p.1 ".csv") then
    csvFileHandler runFolderFiles weatherYear (propertyData.map (·.1))
  else if propertyData.all (fun p => strStartsWith p.1 "M") then
    timeSliceHandler y (propertyData.map fun p => ⟨p.1, p.2⟩)
  else if propertyData.any (fun p => strStartsWith p.1 "H") then
    .ok none
  else
    .ok none

/-- The region loop of `PlexosParser._construct_load_profiles`, reduced
to the data it derives: each region group (name, non-null `text`
annotations of its rows) either contributes a resolved series or is
skipped when the handler yields none (`if not ts: continue`).  The bus
membership lookup and `PowerLoad` registration act on the external
`System` and carry no further control flow. -/
def constructLoadProfiles (runFolderFiles : String → Option CsvFile) (weatherYear : ℚ)
    (regions : List (String × List String)) :
    Except String (List (String × TimeSeriesData)) :=
  regions.foldlM
    (fun acc region =>
      match csvFileHandler runFolderFiles weatherYear region.2 with
      | .error e => .error e
      | .ok none => .ok acc
      | .ok (some ts) => .ok (acc ++ [(region.1, ts)]))
    []

/-! ## Dictionary lemmas -/

instance {ε α : Type} [DecidableEq ε] [DecidableEq α] : DecidableEq (Except ε α) := fun a b =>
  match a, b with
  | .ok x, .ok y =>
    if h : x = y then .isTrue (by rw [h])
    else .isFalse (by intro hc; cases hc; exact h rfl)
  | .error x, .error y =>
    if h : x = y then .isTrue (by rw [h])
    else .isFalse (by intro hc; cases hc; exact h rfl)
  | .ok _, .error _ => .isFalse (by intro hc; cases hc)
  | .error _, .ok _ => .isFalse (by intro hc; cases hc)

theorem bagLookup_eq_none_of_not_any {bag : Bag α} {k : String}
    (h : bag.any (fun p => p.1 == k) = false) : bagLookup bag k = none := by
  induction bag with
  | nil => rfl
  | cons p rest ih =>
    simp only [List.any_cons, Bool.or_eq_false_iff] at h
    simp only [bagLookup, h.1, if_false]
    exact ih h.2

theorem bagLookup_append (l₁ l₂ : Bag α) (k : String) :
    bagLookup (l₁ ++ l₂) k =
      (match bagLookup l₁ k with
       | some v => some v
       | none => bagLookup l₂ k) := by
  induction l₁ with
  | nil => rfl
  | cons p rest ih =>
    by_cases hp : p.1 == k
    · simp [bagLookup, hp]
    · simp only [Bool.not_eq_true] at hp
      simp [bagLookup, hp, ih]

theorem bagLookup_bagSet_self (bag : Bag α) (k : String) (v : α) :
    bagLookup (bagSet bag k v) k = some v := by
  unfold bagSet
  by_cases h : bag.any (fun p => p.1 == k) = true
  · rw [if_pos h]
    induction bag with
    | nil => simp at h
    | cons p rest ih =>
      simp only [List.any_cons, Bool.or_eq_true] at h
      by_cases hp : (p.1 == k) = true
      · rw [List.map_cons, if_pos hp]
        simp [bagLookup]
      · have h' : rest.any (fun p => p.1 == k) = true := by
          rcases h with h | h
          · exact absurd h hp
          · exact h
        rw [List.map_cons, if_neg hp]
        simp only [bagLookup, if_neg hp]
        exact ih h'
  · rw [if_neg h]
    rw [bagLookup_append]
    rw [bagLookup_eq_none_of_not_any (Bool.eq_false_iff.mpr h)]
    simp [bagLookup]

/-! ## C4 / C10: the `available` (Units) clamp -/

/-- **C4.** In `_construct_generators`, a resolved `available` (Units)
value strictly greater than 1 is clamped to exactly 1, a value equal
to 1 is left at 1, and an absent `available` key stays absent: the
clamp never introduces the field. -/
theorem available_units_clamp (validFields : Bag PValue) (q : ℚ) (u : Option String) :
    ((bagLookup validFields "available" = some (.num q u) ∧ 1 < q) →
      bagLookup (clampAvailable validFields) "available" = some (.num 1 none)) ∧
    ((bagLookup validFields "available" = some (.num q u) ∧ q = 1) →
      bagLookup (clampAvailable validFields) "available" = some (.num q u)) ∧
    (bagLookup validFields "available" = none →
      bagLookup (clampAvailable validFields) "available" = none) := by
  refine ⟨fun ⟨h, hq⟩ => ?_, fun ⟨h, hq⟩ => ?_, fun h => ?_⟩
  · unfold clampAvailable
    rw [h]
    dsimp only
    rw [if_neg (by intro h0; rw [h0] at hq; exact absurd hq (by norm_num)), if_pos hq]
    exact bagLookup_bagSet_self _ _ _
  · unfold clampAvailable
    rw [h]
    dsimp only
    rw [if_neg (by rw [hq]; norm_num), if_neg (by rw [hq]; norm_num)]
    exact h
  · unfold clampAvailable
    rw [h]
    exact h

/-- Witness for C4 at concrete inputs: `Units = 3` is clamped to 1 and an
absent `Units` stays absent. -/
theorem available_units_clamp_witness :
    bagLookup (clampAvailable [("available", .num 3 none)]) "available" = some (.num 1 none) ∧
    bagLookup (clampAvailable [("rating", .num 5 none)]) "available" = none :=
  ⟨(available_units_clamp [("available", .num 3 none)] 3 none).1 ⟨by decide, by norm_num⟩,
   (available_units_clamp [("rating", .num 5 none)] 0 none).2.2 (by decide)⟩

/-- **C10.** A retired unit (`Units = 0`) keeps `available = 0`: the
walrus-operator truthiness test skips the clamp for a zero value, and the
zero entry is not dropped. -/
theorem retired_units_available_zero (validFields : Bag PValue) (u : Option String)
    (h : bagLookup validFields "available" = some (.num 0 u)) :
    bagLookup (clampAvailable validFields) "available" = some (.num 0 u) := by
  unfold clampAvailable
  rw [h]
  dsimp only
  rw [if_pos rfl]
  exact h

/-- Witness for C10: a battery/generator bag with `Units = 0` resolves to
`available = 0`. -/
theorem retired_units_available_zero_witness :
    bagLookup (clampAvailable [("available", .num 0 none), ("base_power", .num 5 none)])
      "available" = some (.num 0 none) :=
  retired_units_available_zero [("available", .num 0 none), ("base_power", .num 5 none)] none
    (by decide)

/-! ## C2: band collisions in `_parse_property_data` -/

/-- **C2 (failing evaluation).** Two records sharing the source property
name `"Max Capacity"` (mapped to `"base_power"`) with different bands 1
and 2: the membership test `prop_name not in property_counts` consults
the *source* name while `property_counts` is keyed by the *mapped* name,
so the second record re-enters the first branch, overwrites
`base_power`, and no `base_power_2` field or multi-band mark is ever
produced — contradicting the claimed two distinct fields plus multi-band
flag. -/
theorem mapped_band_collision_collapses :
    parsePropertyData [("Max Capacity", "base_power")] (fun _ => none)
      [⟨1, "Max Capacity", 100, "-"⟩, ⟨2, "Max Capacity", 200, "-"⟩] =
    .ok ([("base_power", .num 200 none)], []) := by decide

/-! ## C6: scenario-resolution error handling -/

/-- **C6 (counterexample).** A model-name lookup returning zero matches
does *not* raise `ModelError`: `_process_scenarios` logs a warning and
returns early. -/
theorem zero_model_matches_no_error :
    (processScenarios (fun _ => []) (fun _ => []) (some "modelA")).isModelErr = false := by
  decide

/-- **C6 (amended).** `_process_scenarios` raises `ModelError` when
invoked with no model name and when the model-name lookup returns more
than one match; a lookup with zero matches instead logs a warning and
returns early, before any scenario processing. -/
theorem scenario_resolution_errors (objectIdQuery : String → List Int)
    (scenarioQuery : Int → List String) (modelName : Option String) :
    (modelName = none →
      processScenarios objectIdQuery scenarioQuery modelName = .modelErr missingModelMsg) ∧
    (∀ nm, modelName = some nm → (objectIdQuery nm).length > 1 →
      processScenarios objectIdQuery scenarioQuery modelName = .modelErr (multipleModelMsg nm)) ∧
    (∀ nm, modelName = some nm → objectIdQuery nm = [] →
      processScenarios objectIdQuery scenarioQuery modelName = .warnReturn) := by
  refine ⟨fun h => ?_, fun nm h hlen => ?_, fun nm h hz => ?_⟩
  · subst h; rfl
  · subst h
    unfold processScenarios
    dsimp only
    rw [if_pos hlen]
  · subst h
    unfold processScenarios
    dsimp only
    rw [hz]
    rfl

/-- Witness for C6 (amended) at concrete inputs: no model name, an
ambiguous lookup, and a missing model. -/
theorem scenario_resolution_errors_witness :
    processScenarios (fun _ => [1, 2]) (fun _ => []) none = .modelErr missingModelMsg ∧
    processScenarios (fun _ => [1, 2]) (fun _ => []) (some "m") =
      .modelErr (multipleModelMsg "m") ∧
    processScenarios (fun _ => []) (fun _ => []) (some "m") = .warnReturn :=
  ⟨(scenario_resolution_errors (fun _ => [1, 2]) (fun _ => []) none).1 rfl,
   (scenario_resolution_errors (fun _ => [1, 2]) (fun _ => []) (some "m")).2.1 "m" rfl
     (by decide),
   (scenario_resolution_errors (fun _ => []) (fun _ => []) (some "m")).2.2 "m" rfl rfl⟩

/-! ## C5: zero-capacity batteries -/

/-- `True` exactly when the battery was added to the system. -/
def BatteryOutcome.isAdded : BatteryOutcome → Bool
  | .added _ => true
  | _ => false

/-- **C5.** A battery whose `storage_capacity` (copied from `Capacity`
before validation) resolves to magnitude 0 is never added to the system,
whatever its other fields: either the required-field check already skips
it, or the dedicated zero-capacity check does. -/
theorem battery_zero_capacity_skipped (batteryFields requiredFields : List String)
    (batteryName : String) (mappedRecords : Bag PValue) (u : Option String)
    (h : bagLookup (batteryMappedRecords batteryName mappedRecords) "storage_capacity" =
      some (.num 0 u)) :
    (constructBattery batteryFields requiredFields batteryName mappedRecords).isAdded
      = false := by
  unfold constructBattery
  dsimp only
  split <;> (
    split
    · rfl
    · rw [h]
      dsimp only
      rw [if_pos rfl]
      rfl)

/-- Witness for C5: a battery with `Capacity = 0`, all required fields
present and valid, is skipped (specifically by the zero-capacity check). -/
theorem battery_zero_capacity_skipped_witness :
    bagLookup
        (batteryMappedRecords "b1" [("Max Power", .num 10 none), ("Capacity", .num 0 none)])
        "storage_capacity" = some (.num 0 none) ∧
    (constructBattery ["name", "base_power", "storage_capacity", "prime_mover_type", "available"]
        ["name", "base_power", "storage_capacity"] "b1"
        [("Max Power", .num 10 none), ("Capacity", .num 0 none)]).isAdded = false ∧
    constructBattery ["name", "base_power", "storage_capacity", "prime_mover_type", "available"]
        ["name", "base_power", "storage_capacity"] "b1"
        [("Max Power", .num 10 none), ("Capacity", .num 0 none)] =
      .skippedZeroCapacity :=
  ⟨by decide,
   battery_zero_capacity_skipped
     ["name", "base_power", "storage_capacity", "prime_mover_type", "available"]
     ["name", "base_power", "storage_capacity"] "b1"
     [("Max Power", .num 10 none), ("Capacity", .num 0 none)] none (by decide),
   by decide⟩

/-! ## C3: resolution with an empty scenario set -/

/-- A concrete base-case row. -/
def row0 : Row :=
  ⟨1, 2, "cat", 1, "r1", some "Load", "-", 5, 1, none, none⟩

/-- **C3 (counterexample).** With an empty active scenario set,
`_get_model_data` raises `ModelError` instead of returning the
predicate-matching scenario-null rows. -/
theorem empty_scenarios_raises :
    getModelData [] [row0] (fun _ => true) = .error noScenarioMsg ∧
    getModelData [] [row0] (fun _ => true) ≠
      .ok ([row0].filter fun r => r.scenario.isNone) := by
  constructor <;> decide

/-- **C3 (amended).** With a *nonempty* scenario set none of whose
scenarios matches any predicate-selected row, `_get_model_data` returns
exactly the rows matching the predicate that have a null scenario (base
case only); with a literally empty scenario set it raises `ModelError`. -/
theorem base_case_only_resolution (scenarios : List String) (table : List Row)
    (p : Row → Bool) (hne : scenarios ≠ [])
    (hempty : table.filter (fun r => p r && scenarioIsIn scenarios r) = []) :
    getModelData scenarios table p = .ok (table.filter fun r => p r && r.scenario.isNone) := by
  unfold getModelData
  rw [if_neg (by simpa [List.isEmpty_iff] using hne)]
  simp [hempty]

/-- Witness for C3 (amended): one base-case row, scenario set `["s"]`
matching nothing. -/
theorem base_case_only_resolution_witness :
    getModelData ["s"] [row0] (fun _ => true) =
      .ok ([row0].filter fun r => (fun _ => true) r && r.scenario.isNone) :=
  base_case_only_resolution ["s"] [row0] (fun _ => true) (by decide) (by decide)

/-! ## C1 / C9: scenario-override resolution shape and pivot precedence -/

theorem any_beq_some (l : List String) (pn : String) :
    (l.any fun x => (some pn : Option String) == some x) = l.contains pn := by
  induction l with
  | nil => rfl
  | cons a as ih =>
    simp only [List.any_cons, List.contains_cons, ih]
    rfl

theorem baseCaseFilter_eq_spec (ssd : List Row) (r : Row) :
    baseCaseFilter (ssd.map (·.name)) (ssd.filterMap (·.property_name)) r =
      baseCaseMaskSpec ssd r := by
  unfold baseCaseFilter baseCaseMaskSpec
  cases hpn : r.property_name with
  | none => simp
  | some pn =>
    simp only [Option.isNone_some, Bool.or_false]
    rw [any_beq_some]
    cases hs : r.scenario.isNone <;>
      cases hn : (ssd.map fun x => x.name).contains r.name <;>
        cases hp : (ssd.filterMap fun x => x.property_name).contains pn <;>
          simp [hs, hn, hp]

/-- Shape lemma shared by the override theorems: with a nonempty scenario
set and nonempty scenario-specific rows, `_get_model_data` returns the
scenario rows concatenated with the base-case-mask rows. -/
theorem getModelData_concat (scenarios : List String) (table : List Row) (p : Row → Bool)
    (hne : scenarios ≠ []) (ssd : List Row)
    (hssd : ssd = table.filter fun r => p r && scenarioIsIn scenarios r)
    (hssdne : ssd ≠ []) :
    getModelData scenarios table p =
      .ok (ssd ++ table.filter fun r =>
        p r && baseCaseFilter (ssd.map (·.name)) (ssd.filterMap (·.property_name)) r) := by
  unfold getModelData
  rw [if_neg (by simpa [List.isEmpty_iff] using hne)]
  dsimp only
  rw [← hssd]
  rw [if_neg (by simpa [List.isEmpty_iff] using hssdne)]

/-- Scenario row covering the pair (name `"a"`, property `"p"`). -/
def rowScen : Row := ⟨1, 2, "cat", 1, "a", some "p", "-", 10, 1, none, some "s"⟩

/-- Base-case row for the same (name, property) pair. -/
def rowBase : Row := ⟨1, 2, "cat", 1, "a", some "p", "-", 7, 1, none, none⟩

/-- **C1 (counterexample).** A base-case row whose (name, property_name)
pair is covered by a scenario row still appears in the resolved table:
its null scenario satisfies the first disjunct of the base-case mask, so
the mask does not exclude it.  Here the scenario row `rowScen` covers
(`"a"`, `"p"`) yet the base row `rowBase` with the same name and the same
non-null property name is returned (after the scenario rows). -/
theorem covered_base_row_retained :
    getModelData ["s"] [rowScen, rowBase] (fun _ => true) = .ok [rowScen, rowBase] ∧
    rowScen.scenario = some "s" ∧ rowBase.scenario = none ∧
    rowBase.name = rowScen.name ∧ rowBase.property_name = rowScen.property_name ∧
    rowBase.property_name = some "p" := by decide

/-- **C1 (amended).** When at least one predicate row matches an active
scenario, `_get_model_data` returns the scenario rows concatenated with
the predicate rows selected by the mask `(scenario is null) OR (name not
among the scenario rows' names AND property_name not among the scenario
rows' property names) OR (property_name is null)` — but a base-case row
whose (name, property_name) pair is covered by a scenario row may still
be returned (its null scenario passes the mask); it follows every
scenario row, and override precedence is realized downstream by the
builders' first-value pivot. -/
theorem scenario_override_shape (scenarios : List String) (table : List Row) (p : Row → Bool)
    (hne : scenarios ≠ []) (ssd : List Row)
    (hssd : ssd = table.filter fun r => p r && scenarioIsIn scenarios r)
    (hssdne : ssd ≠ []) :
    getModelData scenarios table p =
      .ok (ssd ++ table.filter fun r => p r && baseCaseMaskSpec ssd r) := by
  rw [getModelData_concat scenarios table p hne ssd hssd hssdne]
  congr 2
  exact List.filter_congr fun r _ => by rw [baseCaseFilter_eq_spec]

/-- Witness for C1 (amended) at a concrete table with one scenario row
and one covered base-case row. -/
theorem scenario_override_shape_witness :
    getModelData ["s"] [rowScen, rowBase] (fun _ => true) =
      .ok ([rowScen] ++ [rowScen, rowBase].filter fun r =>
        (fun _ => true) r && baseCaseMaskSpec [rowScen] r) :=
  scenario_override_shape ["s"] [rowScen, rowBase] (fun _ => true) (by decide) [rowScen]
    (by decide) (by decide)

/-- **C9.** Whenever scenario-matching rows exist, the resolved table is
the scenario rows followed by the base-case rows, and the builders'
first-value pivot therefore resolves any duplicated
(object id, name, category, property_name) cell to the scenario row's
value: the first matching row of the concatenation is a scenario row. -/
theorem scenario_rows_win_pivot (scenarios : List String) (table : List Row) (p : Row → Bool)
    (oid : Int) (nm cat pn : String) (ssd : List Row)
    (hne : scenarios ≠ [])
    (hssd : ssd = table.filter fun r => p r && scenarioIsIn scenarios r)
    (hmem : ∃ r ∈ ssd, (r.object_id == oid && r.name == nm && r.category == cat &&
      r.property_name == some pn) = true) :
    ∃ baseData r₀,
      getModelData scenarios table p = .ok (ssd ++ baseData) ∧
      r₀ ∈ ssd ∧ scenarioIsIn scenarios r₀ = true ∧
      pivotCell (ssd ++ baseData) oid nm cat pn = some r₀.property_value ∧
      pivotCell ssd oid nm cat pn = some r₀.property_value := by
  have hssdne : ssd ≠ [] := by
    rcases hmem with ⟨r, hr, _⟩
    intro hnil
    rw [hnil] at hr
    simp at hr
  obtain ⟨r₀, hfind⟩ : ∃ r₀, ssd.find? (fun r => r.object_id == oid && r.name == nm &&
      r.category == cat && r.property_name == some pn) = some r₀ :=
    Option.isSome_iff_exists.mp (List.find?_isSome.mpr hmem)
  have hmemf := List.mem_of_find?_eq_some hfind
  refine ⟨_, r₀, getModelData_concat scenarios table p hne ssd hssd hssdne, hmemf, ?_, ?_, ?_⟩
  · rw [hssd] at hmemf
    have h2 := (List.mem_filter.mp hmemf).2
    simp only [Bool.and_eq_true] at h2
    exact h2.2
  · unfold pivotCell
    rw [List.find?_append, hfind]
    rfl
  · unfold pivotCell
    rw [hfind]
    rfl

/-- Witness for C9: the concrete two-row table with a duplicated cell;
the surviving pivot value is the scenario row's. -/
theorem scenario_rows_win_pivot_witness :
    ∃ baseData r₀,
      getModelData ["s"] [rowScen, rowBase] (fun _ => true) = .ok ([rowScen] ++ baseData) ∧
      r₀ ∈ [rowScen] ∧ scenarioIsIn ["s"] r₀ = true ∧
      pivotCell ([rowScen] ++ baseData) 1 "a" "cat" "p" = some r₀.property_value ∧
      pivotCell [rowScen] 1 "a" "cat" "p" = some r₀.property_value :=
  scenario_rows_win_pivot ["s"] [rowScen, rowBase] (fun _ => true) 1 "a" "cat" "p" [rowScen]
    (by decide) (by decide) ⟨rowScen, by decide, by decide⟩

/-! ## C8: missing CSV file is non-fatal -/

theorem foldlM_except_skip {α σ : Type} (f : σ → α → Except String σ) (x : α)
    (hx : ∀ s, f s x = .ok s) (pre post : List α) :
    ∀ s, List.foldlM f s (pre ++ x :: post) = List.foldlM f s (pre ++ post) := by
  induction pre with
  | nil =>
    intro s
    simp only [List.nil_append, List.foldlM_cons, hx s]
    rfl
  | cons a as ih =>
    intro s
    simp only [List.cons_append, List.foldlM_cons]
    cases hfa : f s a with
    | error e => rfl
    | ok s' =>
      show List.foldlM f s' (as ++ x :: post) = List.foldlM f s' (as ++ post)
      exact ih s'

/-- **C8.** A property whose text annotation points to a file missing
from the run folder makes `_csv_file_handler` return no series without
raising (the `FileNotFoundError` is caught, a warning logged), and the
load-profile build for that region is simply skipped: the remaining
regions produce exactly what they would produce had the broken region not
existed. -/
theorem missing_csv_file_skipped (runFolderFiles : String → Option CsvFile)
    (weatherYear : ℚ) (pre post : List (String × List String))
    (regionName fpathText : String) (rest : List String)
    (hfs : runFolderFiles fpathText = none) :
    csvFileHandler runFolderFiles weatherYear (fpathText :: rest) = .ok none ∧
    constructLoadProfiles runFolderFiles weatherYear
        (pre ++ (regionName, fpathText :: rest) :: post) =
      constructLoadProfiles runFolderFiles weatherYear (pre ++ post) := by
  have hh : csvFileHandler runFolderFiles weatherYear (fpathText :: rest) = .ok none := by
    unfold csvFileHandler
    dsimp only
    rw [hfs]
  refine ⟨hh, ?_⟩
  unfold constructLoadProfiles
  exact foldlM_except_skip _ (regionName, fpathText :: rest)
    (fun s => by dsimp only; rw [hh]) pre post []

/-- Witness for C8: an empty run folder; the region referencing
`"loads.csv"` is skipped and an adjacent region list is unaffected. -/
theorem missing_csv_file_skipped_witness :
    csvFileHandler (fun _ => none) 2012 ("loads.csv" :: []) = .ok none ∧
    constructLoadProfiles (fun _ => none) 2012
        ([("regA", ["other.csv"])] ++ ("regB", "loads.csv" :: []) :: []) =
      constructLoadProfiles (fun _ => none) 2012 ([("regA", ["other.csv"])] ++ []) :=
  missing_csv_file_skipped (fun _ => none) 2012 [("regA", ["other.csv"])] [] "regB"
    "loads.csv" [] rfl

/-! ## C7: twelve-month time-slice broadcasting -/

theorem monthsOfYear_length (y : ℕ) : (monthsOfYear y).length = 24 * daysInYear y := by
  unfold monthsOfYear daysInYear
  rw [show List.range 12 = [0, 1, 2, 3, 4, 5, 6, 7, 8, 9, 10, 11] from rfl]
  cases h : isLeap y <;>
    · simp only [List.flatMap_cons, List.flatMap_nil, List.length_append,
        List.length_replicate, List.length_nil]
      norm_num [daysInMonth, h]

theorem mem_monthsOfYear {y x : ℕ} (hx : x ∈ monthsOfYear y) : 1 ≤ x ∧ x ≤ 12 := by
  unfold monthsOfYear at hx
  simp only [List.mem_flatMap, List.mem_range, List.mem_replicate] at hx
  obtain ⟨m, hm, _, rfl⟩ := hx
  omega

theorem monthAssign_length (months : List ℕ) (s : List ℚ) (m : ℕ) (v : ℚ)
    (hlen : s.length = months.length) : (monthAssign months s m v).length = s.length := by
  simp [monthAssign, List.length_zip, hlen]

theorem monthAssign_getD (months : List ℕ) (s : List ℚ) (m : ℕ) (v : ℚ) (i : ℕ)
    (hlen : s.length = months.length) (hi : i < s.length) :
    (monthAssign months s m v).getD i 0 =
      if months.getD i 0 == m then v else s.getD i 0 := by
  have hiM : i < months.length := hlen ▸ hi
  have hiA : i < (monthAssign months s m v).length := by
    rw [monthAssign_length months s m v hlen]; exact hi
  rw [List.getD_eq_getElem _ _ hiA, List.getD_eq_getElem _ _ hiM, List.getD_eq_getElem _ _ hi]
  simp [monthAssign, List.getElem_zip]

/-- Behaviour of the `_time_slice_handler` assignment loop: when every
record's month code parses and the parsed codes are pairwise distinct,
the loop succeeds, preserves length, leaves untouched every position
whose month no record mentions, and writes each matching record's value
at every position of its month. -/
theorem timeSlice_foldlM_spec (months : List ℕ) (records : List SliceRecord)
    (hsome : ∀ r ∈ records, (parseMonthCode r.text).isSome = true)
    (hnodup : (records.map fun r => parseMonthCode r.text).Nodup) :
    ∀ s : List ℚ, s.length = months.length →
      ∃ out, List.foldlM (timeSliceStep months) s records = .ok out ∧
        out.length = s.length ∧
        ∀ i, i < s.length →
          ((∀ r ∈ records, parseMonthCode r.text ≠ some (months.getD i 0)) →
            out.getD i 0 = s.getD i 0) ∧
          (∀ r ∈ records, parseMonthCode r.text = some (months.getD i 0) →
            out.getD i 0 = r.property_value) := by
  induction records with
  | nil =>
    intro s hs
    exact ⟨s, rfl, rfl, fun i hi =>
      ⟨fun _ => rfl, fun r hr => absurd hr (List.not_mem_nil r)⟩⟩
  | cons r rs ih =>
    intro s hs
    obtain ⟨m, hm⟩ : ∃ m, parseMonthCode r.text = some m :=
      Option.isSome_iff_exists.mp (hsome r (List.mem_cons_self r rs))
    have hstep : timeSliceStep months s r = .ok (monthAssign months s m r.property_value) := by
      unfold timeSliceStep
      rw [hm]
    rw [List.map_cons] at hnodup
    obtain ⟨hnotin, hnodup'⟩ := List.nodup_cons.mp hnodup
    have hsome' : ∀ r' ∈ rs, (parseMonthCode r'.text).isSome = true :=
      fun r' hr' => hsome r' (List.mem_cons_of_mem r hr')
    have hlen1 : (monthAssign months s m r.property_value).length = s.length :=
      monthAssign_length months s m r.property_value hs
    obtain ⟨out, hout, hlen2, hspec⟩ :=
      ih hsome' hnodup' (monthAssign months s m r.property_value) (by rw [hlen1, hs])
    refine ⟨out, ?_, by rw [hlen2, hlen1], ?_⟩
    · rw [List.foldlM_cons, hstep]
      exact hout
    · intro i hi
      have hi1 : i < (monthAssign months s m r.property_value).length := by
        rw [hlen1]; exact hi
      constructor
      · intro hnone
        have h1 := (hspec i hi1).1 fun r' hr' => hnone r' (List.mem_cons_of_mem r hr')
        rw [h1, monthAssign_getD months s m r.property_value i hs hi]
        have hne : (months.getD i 0 == m) = false := by
          apply beq_eq_false_iff_ne.mpr
          intro hc
          exact hnone r (List.mem_cons_self r rs) (by rw [hm, hc])
        rw [hne]
        simp
      · intro r' hr' hpr'
        rcases List.mem_cons.mp hr' with rfl | hr''
        · have hmonth : m = (months.getD i 0) := by
            have := hm.symm.trans hpr'
            exact Option.some.inj this
          have hnone' : ∀ r'' ∈ rs, parseMonthCode r''.text ≠ some (months.getD i 0) := by
            intro r'' hr'' hc
            apply hnotin
            have heq : parseMonthCode r'.text = parseMonthCode r''.text := by
              rw [hm, hmonth, hc]
            rw [heq]
            exact List.mem_map_of_mem _ hr''
          have h1 := (hspec i hi1).1 hnone'
          rw [h1, monthAssign_getD months s m r'.property_value i hs hi]
          rw [show ((months.getD i 0 == m) = true) from beq_iff_eq.mpr hmonth.symm]
          simp
        · exact (hspec i hi1).2 r' hr'' hpr'

/-- Twelve month-code texts as they stand in a region's governing rows. -/
def monthCodeTexts : List String :=
  ["M1", "M2", "M3", "M4", "M5", "M6", "M7", "M8", "M9", "M10", "M11", "M12"]

/-- **C7 (counterexample).** A region whose twelve governing rows are
tagged `M1`..`M12`, run through the build's live region time-series path
(`_construct_load_profiles`, which hands the annotations to
`_csv_file_handler` only — the `_time_slice_handler` dispatch sits in
`_construct_renewable_profiles`, which `build_system` never calls):
no file named `M1` exists in the run folder, so the region is skipped
and the build attaches no series at all, contradicting the claimed
hourly month-broadcast attachment. -/
theorem month_slice_region_gets_no_series :
    (monthCodeTexts.map parseMonthCode) = ((List.range 12).map fun m => some (m + 1)) ∧
    constructLoadProfiles (fun _ => none) 2007 [("regA", monthCodeTexts)] = .ok [] := by
  exact ⟨by decide, by decide⟩

/-- **C7 (amended).** `_time_slice_handler` itself synthesizes, for
twelve records tagged `M1`..`M12` (in any order), an hourly series over
the full target weather year (initial time January 1st, one-hour
resolution, one entry per hour of the year) in which every hour's value
is the value of the record tagged with that hour's month, and any other
record count logs a warning and produces no series; the `_text_handler`
dispatcher selects it for all-`M` annotations — but that dispatcher is
reachable only from `_construct_renewable_profiles`, which `build_system`
does not invoke, and the live region path `_construct_load_profiles`
hands the annotations to `_csv_file_handler` only, so a region whose
rows carry month codes (which name no file in the run folder) is
skipped with no series attached to it by the build. -/
theorem time_slice_twelve_months (y : ℕ) (records : List SliceRecord) :
    (records.length ≠ 12 → timeSliceHandler y records = .ok none) ∧
    ((records.map fun r => parseMonthCode r.text).Perm
        ((List.range 12).map fun m => some (m + 1)) →
      ∃ s, timeSliceHandler y records = .ok (some ⟨1, (y : ℚ), 1, 1, s⟩) ∧
        s.length = 24 * daysInYear y ∧
        ∀ i, i < s.length → ∃ r ∈ records,
          parseMonthCode r.text = some ((monthsOfYear y).getD i 0) ∧
          s.getD i 0 = r.property_value) ∧
    (∀ (fs : String → Option CsvFile) (wy : ℚ) (propertyData : List (String × ℚ)),
      (propertyData.all fun p => strEndsWith p.1 ".csv") = false →
      (propertyData.all fun p => strStartsWith p.1 "M") = true →
      textHandler fs wy y propertyData =
        timeSliceHandler y (propertyData.map fun p => ⟨p.1, p.2⟩)) ∧
    (∀ (fs : String → Option CsvFile) (wy : ℚ) (regionName t0 : String) (rest : List String),
      fs t0 = none →
      constructLoadProfiles fs wy [(regionName, t0 :: rest)] = .ok []) := by
  refine ⟨?_, ?_, ?_, ?_⟩
  · intro h
    unfold timeSliceHandler
    rw [if_pos h]
  · intro hperm
    have hlen12 : records.length = 12 := by
      have := hperm.length_eq
      simpa using this
    have hsome : ∀ r ∈ records, (parseMonthCode r.text).isSome = true := by
      intro r hr
      have hmem : parseMonthCode r.text ∈ (List.range 12).map fun m => some (m + 1) :=
        hperm.mem_iff.mp (List.mem_map_of_mem _ hr)
      simp only [List.mem_map] at hmem
      obtain ⟨m, _, hmeq⟩ := hmem
      rw [← hmeq]
      rfl
    have hnodup : (records.map fun r => parseMonthCode r.text).Nodup := by
      refine hperm.nodup_iff.mpr ?_
      exact (List.nodup_range 12).map
        (fun a b hab => by simp only [Option.some.injEq] at hab; omega)
    have hinit : (List.replicate (24 * daysInYear y) (0 : ℚ)).length =
        (monthsOfYear y).length := by
      rw [List.length_replicate, monthsOfYear_length]
    obtain ⟨out, hout, hlenout, hspec⟩ :=
      timeSlice_foldlM_spec (monthsOfYear y) records hsome hnodup
        (List.replicate (24 * daysInYear y) 0) hinit
    refine ⟨out, ?_, ?_, ?_⟩
    · unfold timeSliceHandler
      rw [if_neg (by rw [hlen12]; intro hc; exact hc rfl)]
      rw [hout]
      rfl
    · rw [hlenout, List.length_replicate]
    · intro i hi
      have hi' : i < (List.replicate (24 * daysInYear y) (0 : ℚ)).length := by
        rw [List.length_replicate]
        rw [hlenout, List.length_replicate] at hi
        exact hi
      have hiM : i < (monthsOfYear y).length := by
        rw [monthsOfYear_length]
        rw [hlenout, List.length_replicate] at hi
        exact hi
      have hmem : (monthsOfYear y).getD i 0 ∈ monthsOfYear y := by
        rw [List.getD_eq_getElem _ _ hiM]
        exact List.getElem_mem _
      obtain ⟨h1x, h12x⟩ := mem_monthsOfYear hmem
      have hx : some ((monthsOfYear y).getD i 0) ∈
          (List.range 12).map fun m => some (m + 1) := by
        simp only [List.mem_map, List.mem_range]
        exact ⟨(monthsOfYear y).getD i 0 - 1, by omega, by congr 1; omega⟩
      have hx2 : some ((monthsOfYear y).getD i 0) ∈
          records.map fun r => parseMonthCode r.text := hperm.mem_iff.mpr hx
      simp only [List.mem_map] at hx2
      obtain ⟨r, hr, hpr⟩ := hx2
      exact ⟨r, hr, hpr, (hspec i hi').2 r hr hpr⟩
  · intro fs wy propertyData hcsv hM
    unfold textHandler
    rw [hcsv, hM]
    simp
  · intro fs wy regionName t0 rest hfs
    have hh : csvFileHandler fs wy (t0 :: rest) = .ok none := by
      unfold csvFileHandler
      dsimp only
      rw [hfs]
    unfold constructLoadProfiles
    rw [List.foldlM_cons]
    dsimp only
    rw [hh]
    rfl

/-- Twelve concrete month-tagged records, one per month. -/
def sliceRecords : List SliceRecord :=
  [⟨"M1", 1⟩, ⟨"M2", 2⟩, ⟨"M3", 3⟩, ⟨"M4", 4⟩, ⟨"M5", 5⟩, ⟨"M6", 6⟩,
   ⟨"M7", 7⟩, ⟨"M8", 8⟩, ⟨"M9", 9⟩, ⟨"M10", 10⟩, ⟨"M11", 11⟩, ⟨"M12", 12⟩]

/-- Witness for C7 (amended): the twelve concrete records produce a
full-year hourly series with each hour carrying its month's value, a
non-twelve record list produces no series, the dead dispatcher routes
all-`M` annotations to the time-slice handler, and the live build path
skips a region whose annotation names no existing file. -/
theorem time_slice_twelve_months_witness :
    (∃ s, timeSliceHandler 2007 sliceRecords = .ok (some ⟨1, (2007 : ℚ), 1, 1, s⟩) ∧
      s.length = 24 * daysInYear 2007 ∧
      ∀ i, i < s.length → ∃ r ∈ sliceRecords,
        parseMonthCode r.text = some ((monthsOfYear 2007).getD i 0) ∧
        s.getD i 0 = r.property_value) ∧
    timeSliceHandler 2007 [⟨"M1", 1⟩] = .ok none ∧
    textHandler (fun _ => none) 2012 2007 [("M1", 5)] =
      timeSliceHandler 2007 ([("M1", (5 : ℚ))].map fun p => ⟨p.1, p.2⟩) ∧
    constructLoadProfiles (fun _ => none) 2012 [("regA", "M1" :: ["M2"])] = .ok [] :=
  ⟨(time_slice_twelve_months 2007 sliceRecords).2.1
    (by rw [show (sliceRecords.map fun r => parseMonthCode r.text) =
          ((List.range 12).map fun m => some (m + 1)) from by decide]),
   (time_slice_twelve_months 2007 [⟨"M1", 1⟩]).1 (by decide),
   (time_slice_twelve_months 2007 sliceRecords).2.2.1 (fun _ => none) 2012 [("M1", 5)]
     (by decide) (by decide),
   (time_slice_twelve_months 2007 sliceRecords).2.2.2 (fun _ => none) 2012 "regA" "M1"
     ["M2"] rfl⟩

end R2X
